import Mathlib

/-!
Shallow embedding of the shape3d game server core (`src/unnamed/part_002`,
the active server variant; `src/unnamed/part_003` is the duplicated variant,
embedded below in namespace `ServerB`), together with the shared data model
from `src/src/shared/types/api.ts`.

Modelling conventions:
* JS numbers that only ever hold integers (coordinates, timestamps, scores)
  are `Int`; round counters are `Nat`.
* Redis persistence is modelled by explicit state passing: each operation takes
  the `GameState` it would read and returns the `GameState` it would save.
* Sources of nondeterminism (`Math.random`, `Date.now`, generated ids, the
  current username) are explicit parameters; random positions are drawn from a
  stream `rand : Nat -> Position3D` with a cursor index.
* `Array.prototype.sort` with a comparator (stable since ES2019) is modelled by
  the stable `List.mergeSort` with the boolean order induced by the comparator.
-/

namespace Shape3D

/-- `ShapeType` from `src/src/shared/types/api.ts`. -/
inductive ShapeType
  | cube
  | triangle
  | sphere
deriving DecidableEq

/-- `ShapeColor` from `src/src/shared/types/api.ts`. -/
inductive ShapeColor
  | red
  | blue
  | green
  | yellow
  | purple
  | orange
deriving DecidableEq

/-- `Position3D` from `src/src/shared/types/api.ts`. -/
structure Position3D where
  x : Int
  y : Int
  z : Int
deriving DecidableEq

/-- `PlacedShape` from `src/src/shared/types/api.ts`. -/
structure PlacedShape where
  id : String
  type : ShapeType
  color : ShapeColor
  position : Position3D
  playerId : String
  timestamp : Int
deriving DecidableEq

/-- `Challenge` from `src/src/shared/types/api.ts`. -/
structure Challenge where
  id : String
  positions : List Position3D
  shapes : List ShapeType
  colors : List ShapeColor
  startTime : Int
  duration : Int
deriving DecidableEq

/-- `PlayerScore` from `src/src/shared/types/api.ts` (`lastPlacement` is an
optional field). -/
structure PlayerScore where
  playerId : String
  score : Int
  lastPlacement : Option Int
deriving DecidableEq

/-- `GameState` from `src/src/shared/types/api.ts`.  The derived fields
`isActive` (always recomputed as `currentRound < totalRounds` by
`getGameState`) and the transient countdown fields are omitted. -/
structure GameState where
  shapes : List PlacedShape
  currentChallenge : Option Challenge
  players : List String
  leaderboard : List PlayerScore
  currentRound : Nat
  totalRounds : Nat
deriving DecidableEq

/-- `PlaceShapeRequest` from `src/src/shared/types/api.ts`. -/
structure PlaceShapeRequest where
  type : ShapeType
  color : ShapeColor
  position : Position3D
deriving DecidableEq

/-- `TOTAL_ROUNDS` constant, `src/unnamed/part_002` line 28. -/
def TOTAL_ROUNDS : Nat := 5

/-- `maxAttempts` bound inside `createChallenge`, `src/unnamed/part_002`
line 185 (also `initializeGameForPost`). -/
def maxAttempts : Nat := 100

/-- Componentwise position equality, as written in the JS comparisons
`shape.position.x === position.x && ... && shape.position.z === position.z`. -/
def posEq (p q : Position3D) : Bool :=
  p.x == q.x && p.y == q.y && p.z == q.z

/-- `checkChallengeCompletion`, `src/unnamed/part_002` lines 41-71.  The JS
loop indexes the three parallel arrays and returns `false` when any of
`positions[i]`, `shapes[i]`, `colors[i]` is absent. -/
def checkChallengeCompletion (gameState : GameState) : Bool :=
  match gameState.currentChallenge with
  | none => false
  | some challenge =>
    (List.range challenge.positions.length).all fun i =>
      match challenge.positions[i]?, challenge.shapes[i]?, challenge.colors[i]? with
      | some requiredPos, some requiredShape, some requiredColor =>
        (gameState.shapes.find? fun shape =>
          posEq shape.position requiredPos &&
          shape.type == requiredShape &&
          shape.color == requiredColor).isSome
      | _, _, _ => false

/-- `isPositionOccupied`, `src/unnamed/part_002` lines 230-236. -/
def isPositionOccupied (shapes : List PlacedShape) (position : Position3D) : Bool :=
  shapes.any fun shape => posEq shape.position position

/-- `isValidChallengeMove`, `src/unnamed/part_002` lines 239-258.  The JS
`findIndex` is `List.findIdx?`; when the index is in range but the parallel
`shapes`/`colors` arrays are shorter, the JS `===` against `undefined` is
`false`, captured by comparing with the optional lookup. -/
def isValidChallengeMove (gameState : GameState) (shape : PlacedShape) : Bool :=
  match gameState.currentChallenge with
  | none => false
  | some challenge =>
    match challenge.positions.findIdx? (fun pos => posEq pos shape.position) with
    | none => false
    | some challengeIndex =>
      challenge.shapes[challengeIndex]? == some shape.type &&
      challenge.colors[challengeIndex]? == some shape.color

/-- `isFirstPlacementInChallenge`, `src/unnamed/part_002` lines 261-291. -/
def isFirstPlacementInChallenge (gameState : GameState) (currentShape : PlacedShape) : Bool :=
  match gameState.currentChallenge with
  | none => false
  | some challenge =>
    (gameState.shapes.filter fun shape =>
      if shape.id == currentShape.id then false
      else if shape.timestamp < challenge.startTime then false
      else
        match challenge.positions.findIdx? (fun pos => posEq pos shape.position) with
        | none => false
        | some challengeIndex =>
          challenge.shapes[challengeIndex]? == some shape.type &&
          challenge.colors[challengeIndex]? == some shape.color).length == 0

/-- The in-place mutation `playerScore.score += bonusPoints;
playerScore.lastPlacement = Date.now()` applied inside `updatePlayerScore`. -/
def bump (bonusPoints now : Int) (p : PlayerScore) : PlayerScore :=
  { p with score := p.score + bonusPoints, lastPlacement := some now }

/-- Update the first list entry whose `playerId` matches, leaving the rest
unchanged: the effect of mutating the object returned by `Array.find`. -/
def updateFirst (lb : List PlayerScore) (playerId : String)
    (f : PlayerScore → PlayerScore) : List PlayerScore :=
  match lb with
  | [] => []
  | p :: rest =>
    if p.playerId == playerId then f p :: rest
    else p :: updateFirst rest playerId f

/-- The comparator passed to `gameState.leaderboard.sort` in
`src/unnamed/part_002` lines 306-311, as a boolean "may come first" order:
`a` may precede `b` iff `compare(a, b) <= 0`, i.e. strictly higher score
first, and on equal scores the smaller `lastPlacement || 0` first. -/
def lbLE (a b : PlayerScore) : Bool :=
  if a.score ≠ b.score then decide (b.score < a.score)
  else decide (a.lastPlacement.getD 0 ≤ b.lastPlacement.getD 0)

/-- `updatePlayerScore`, `src/unnamed/part_002` lines 294-312.  `now` stands
for the `Date.now()` call on line 303. -/
def updatePlayerScore (gameState : GameState) (playerId : String)
    (bonusPoints : Int) (now : Int) : GameState :=
  let lb0 := gameState.leaderboard
  let lb1 :=
    if (lb0.find? fun p => p.playerId == playerId).isSome then lb0
    else lb0 ++ [{ playerId := playerId, score := 0, lastPlacement := none }]
  let lb2 := updateFirst lb1 playerId (bump bonusPoints now)
  { gameState with leaderboard := lb2.mergeSort lbLE }

/-- One slot of the `do { position = getRandomPosition(); attempts++ } while
(attempts < maxAttempts && <collision>)` loop in `createChallenge`
(`src/unnamed/part_002` lines 187-201) and `initializeGameForPost`
(`src/src/shared/types/api.ts` part).  `k` is the cursor into the random
stream; `budget` is the number of samples still allowed including the current
one (initially `maxAttempts`).  Returns the accepted position and the new
cursor. -/
def sampleSlot (rand : Nat → Position3D) (bad : Position3D → Bool)
    (k : Nat) : Nat → Position3D × Nat
  | 0 => (rand k, k + 1)
  | 1 => (rand k, k + 1)
  | budget + 2 =>
    let position := rand k
    if bad position then sampleSlot rand bad (k + 1) (budget + 1)
    else (position, k + 1)

/-- The `for (let i = 0; i < 3; i++)` slot loop of `createChallenge`,
accumulating chosen positions: a candidate is bad when it collides with an
already-placed shape or with a slot already chosen for this challenge. -/
def genPositionsAux (rand : Nat → Position3D) (shapes : List PlacedShape) :
    List Position3D → Nat → Nat → List Position3D × Nat
  | acc, k, 0 => (acc, k)
  | acc, k, n + 1 =>
    let res := sampleSlot rand
      (fun position =>
        isPositionOccupied shapes position ||
        acc.any fun p => posEq p position) k maxAttempts
    genPositionsAux rand shapes (acc ++ [res.1]) res.2 n

/-- Position generation for the 3 slots of a new challenge. -/
def genPositions (rand : Nat → Position3D) (shapes : List PlacedShape)
    (k : Nat) : List Position3D × Nat :=
  genPositionsAux rand shapes [] k 3

/-- The nondeterministic inputs consumed by `createChallenge`: the random
position stream with its cursor, the three `getRandomShape()` and three
`getRandomColor()` draws, the generated id and `Date.now()`. -/
structure ChallengeEnv where
  rand : Nat → Position3D
  randIdx : Nat
  shape0 : ShapeType
  shape1 : ShapeType
  shape2 : ShapeType
  color0 : ShapeColor
  color1 : ShapeColor
  color2 : ShapeColor
  newId : String
  now : Int

/-- `createChallenge`, `src/unnamed/part_002` lines 171-226: returns the
created challenge (or `none` once `currentRound >= TOTAL_ROUNDS`) together
with the game state as saved (unchanged when no challenge is created, since
the early return skips `saveGameState`). -/
def createChallenge (gameState : GameState) (env : ChallengeEnv) :
    Option Challenge × GameState :=
  if gameState.currentRound ≥ TOTAL_ROUNDS then (none, gameState)
  else
    let gs := { gameState with currentRound := gameState.currentRound + 1 }
    let positions := (genPositions env.rand gs.shapes env.randIdx).1
    let challenge : Challenge :=
      { id := env.newId
        positions := positions
        shapes := [env.shape0, env.shape1, env.shape2]
        colors := [env.color0, env.color1, env.color2]
        startTime := env.now
        duration := 0 }
    (some challenge, { gs with currentChallenge := some challenge })

/-- `completeChallengeAndScheduleNext`, `src/unnamed/part_002` lines 73-110:
deletes the current challenge, then creates the next one when rounds remain. -/
def completeChallengeAndScheduleNext (gameState : GameState) (env : ChallengeEnv) :
    Option Challenge × GameState :=
  let gs := { gameState with currentChallenge := none }
  if gs.currentRound < TOTAL_ROUNDS then createChallenge gs env
  else (none, gs)

/-- The `PlacedShape` constructed by the `/api/place` handler
(`src/unnamed/part_002` lines 414-421); `username` stands for
`username ?? 'anonymous'` and `now` for `Date.now()`. -/
def mkPlacedShape (request : PlaceShapeRequest) (username newId : String)
    (now : Int) : PlacedShape :=
  { id := newId
    type := request.type
    color := request.color
    position := request.position
    playerId := username
    timestamp := now }

/-- The rejection message on line 408 of `src/unnamed/part_002`. -/
def occupiedMessage (position : Position3D) : String :=
  "Position (" ++ toString position.x ++ ", " ++ toString position.y ++ ", " ++
    toString position.z ++ ") is already occupied!"

/-- String form of a `ShapeType`, as interpolated into the success message. -/
def ShapeType.asString : ShapeType → String
  | .cube => "cube"
  | .triangle => "triangle"
  | .sphere => "sphere"

/-- String form of a `ShapeColor`, as interpolated into the success message. -/
def ShapeColor.asString : ShapeColor → String
  | .red => "red"
  | .blue => "blue"
  | .green => "green"
  | .yellow => "yellow"
  | .purple => "purple"
  | .orange => "orange"

/-- The `PlaceShapeResponse` fields computed by the `/api/place` handler
(`shape` is absent on the rejection path). -/
structure PlaceResult where
  success : Bool
  shape : Option PlacedShape
  gameState : GameState
  message : String
  isFirstPlacement : Bool
deriving DecidableEq

/-- The `/api/place` transaction, `src/unnamed/part_002` lines 386-519
(happy path inside the `try`; broadcasts are fire-and-forget and carry no
state, so they are not modelled).  Order of operations follows the source:
occupancy guard, shape construction, pre-insertion validity and
first-placement checks, append, conditional scoring, save, and the
post-insertion completion check driving the challenge transition. -/
def placeShape (gameState : GameState) (request : PlaceShapeRequest)
    (username newId : String) (now : Int) (env : ChallengeEnv) : PlaceResult :=
  if isPositionOccupied gameState.shapes request.position then
    { success := false
      shape := none
      gameState := gameState
      message := occupiedMessage request.position
      isFirstPlacement := false }
  else
    let newShape := mkPlacedShape request username newId now
    let isValidMove := isValidChallengeMove gameState newShape
    let isFirstPlacement := isValidMove && isFirstPlacementInChallenge gameState newShape
    let gs1 := { gameState with shapes := gameState.shapes ++ [newShape] }
    let gs2 :=
      if isValidMove then
        if isFirstPlacement then updatePlayerScore gs1 username 2 now
        else updatePlayerScore gs1 username 1 now
      else gs1
    let gs3 :=
      if gs2.currentChallenge.isSome && checkChallengeCompletion gs2 then
        (completeChallengeAndScheduleNext gs2 env).2
      else gs2
    { success := true
      shape := some newShape
      gameState := gs3
      message := username ++ " placed a " ++ request.color.asString ++ " " ++
        request.type.asString
      isFirstPlacement := isFirstPlacement }

namespace ServerB

/-- `checkChallengeCompletion` as written in the duplicated server variant
`src/unnamed/part_003`, lines 41-71. -/
def checkChallengeCompletion (gameState : GameState) : Bool :=
  match gameState.currentChallenge with
  | none => false
  | some challenge =>
    (List.range challenge.positions.length).all fun i =>
      match challenge.positions[i]?, challenge.shapes[i]?, challenge.colors[i]? with
      | some requiredPos, some requiredShape, some requiredColor =>
        (gameState.shapes.find? fun shape =>
          posEq shape.position requiredPos &&
          shape.type == requiredShape &&
          shape.color == requiredColor).isSome
      | _, _, _ => false

/-- `isPositionOccupied` from `src/unnamed/part_003`, lines 254-260. -/
def isPositionOccupied (shapes : List PlacedShape) (position : Position3D) : Bool :=
  shapes.any fun shape => posEq shape.position position

/-- `isValidChallengeMove` from `src/unnamed/part_003`, lines 263-282. -/
def isValidChallengeMove (gameState : GameState) (shape : PlacedShape) : Bool :=
  match gameState.currentChallenge with
  | none => false
  | some challenge =>
    match challenge.positions.findIdx? (fun pos => posEq pos shape.position) with
    | none => false
    | some challengeIndex =>
      challenge.shapes[challengeIndex]? == some shape.type &&
      challenge.colors[challengeIndex]? == some shape.color

/-- `isFirstPlacementInChallenge` from `src/unnamed/part_003`, lines 285-315. -/
def isFirstPlacementInChallenge (gameState : GameState) (currentShape : PlacedShape) : Bool :=
  match gameState.currentChallenge with
  | none => false
  | some challenge =>
    (gameState.shapes.filter fun shape =>
      if shape.id == currentShape.id then false
      else if shape.timestamp < challenge.startTime then false
      else
        match challenge.positions.findIdx? (fun pos => posEq pos shape.position) with
        | none => false
        | some challengeIndex =>
          challenge.shapes[challengeIndex]? == some shape.type &&
          challenge.colors[challengeIndex]? == some shape.color).length == 0

/-- The comparator of the `leaderboard.sort` call in `src/unnamed/part_003`,
lines 330-335, as a boolean order (same shape as `Shape3D.lbLE`). -/
def lbLE (a b : PlayerScore) : Bool :=
  if a.score ≠ b.score then decide (b.score < a.score)
  else decide (a.lastPlacement.getD 0 ≤ b.lastPlacement.getD 0)

/-- `updatePlayerScore` from `src/unnamed/part_003`, lines 318-336. -/
def updatePlayerScore (gameState : GameState) (playerId : String)
    (bonusPoints : Int) (now : Int) : GameState :=
  let lb0 := gameState.leaderboard
  let lb1 :=
    if (lb0.find? fun p => p.playerId == playerId).isSome then lb0
    else lb0 ++ [{ playerId := playerId, score := 0, lastPlacement := none }]
  let lb2 := updateFirst lb1 playerId (bump bonusPoints now)
  { gameState with leaderboard := lb2.mergeSort lbLE }

end ServerB

/-- One call to the `/api/place` endpoint with its nondeterministic inputs. -/
structure PlaceCall where
  request : PlaceShapeRequest
  username : String
  newId : String
  now : Int
  env : ChallengeEnv

/-- Sequential execution of a list of placement requests against a session. -/
def runPlacements (gameState : GameState) : List PlaceCall → GameState
  | [] => gameState
  | c :: cs =>
    runPlacements
      (placeShape gameState c.request c.username c.newId c.now c.env).gameState cs

/-- Observer: the score the leaderboard reports for a player (`0` when the
player has no entry, matching the fresh `{ playerId, score: 0 }` baseline). -/
def getScore (lb : List PlayerScore) (playerId : String) : Int :=
  match lb.find? (fun p => p.playerId == playerId) with
  | some p => p.score
  | none => 0

/-- Specification predicate: the leaderboard ordering demanded by the spec —
descending by score and, among equal scores, ascending by the
`lastPlacement || 0` timestamp (earlier scorers rank above later scorers). -/
def lbOrdered (lb : List PlayerScore) : Prop :=
  lb.Pairwise fun a b =>
    b.score < a.score ∨
      (a.score = b.score ∧ a.lastPlacement.getD 0 ≤ b.lastPlacement.getD 0)

/-- One scoring event: a call to `updatePlayerScore` with its inputs. -/
structure ScoringEvent where
  playerId : String
  bonusPoints : Int
  now : Int

/-- Sequential application of scoring events to a session. -/
def applyScoringEvents (gameState : GameState) : List ScoringEvent → GameState
  | [] => gameState
  | e :: es =>
    applyScoringEvents (updatePlayerScore gameState e.playerId e.bonusPoints e.now) es

/-! ### Concrete values used by the closed witnesses -/

/-- Origin position used by the concrete witnesses. -/
def exPos : Position3D := { x := 0, y := 0, z := 0 }

/-- A concrete placed shape used by the witnesses. -/
def exShape : PlacedShape :=
  { id := "s1"
    type := ShapeType.cube
    color := ShapeColor.red
    position := exPos
    playerId := "alice"
    timestamp := 0 }

/-- A concrete challenge environment used by the witnesses. -/
def exEnv : ChallengeEnv :=
  { rand := fun _ => exPos
    randIdx := 0
    shape0 := ShapeType.cube
    shape1 := ShapeType.cube
    shape2 := ShapeType.cube
    color0 := ShapeColor.red
    color1 := ShapeColor.red
    color2 := ShapeColor.red
    newId := "c1"
    now := 0 }

/-- A concrete session with one shape placed at the origin, no challenge. -/
def exGS : GameState :=
  { shapes := [exShape]
    currentChallenge := none
    players := ["alice"]
    leaderboard := []
    currentRound := 1
    totalRounds := 5 }

/-- A concrete placement request targeting the origin. -/
def exReq : PlaceShapeRequest :=
  { type := ShapeType.cube, color := ShapeColor.red, position := exPos }

/-- A concrete request far outside the documented grid ranges. -/
def exReqFar : PlaceShapeRequest :=
  { type := ShapeType.sphere
    color := ShapeColor.blue
    position := { x := 1000, y := -5, z := 1000 } }

/-- A concrete challenge requiring a red sphere at the origin. -/
def exCh : Challenge :=
  { id := "ch"
    positions := [exPos]
    shapes := [ShapeType.sphere]
    colors := [ShapeColor.red]
    startTime := 0
    duration := 0 }

/-- An empty session whose active challenge is `exCh`. -/
def exGSCh : GameState :=
  { shapes := []
    currentChallenge := some exCh
    players := ["alice"]
    leaderboard := []
    currentRound := 1
    totalRounds := 5 }

/-- A request that satisfies the single slot of `exCh`. -/
def exReqSphere : PlaceShapeRequest :=
  { type := ShapeType.sphere, color := ShapeColor.red, position := exPos }

/-- A finished session: round counter at the bound, challenge cleared. -/
def exGSDone : GameState :=
  { shapes := [exShape]
    currentChallenge := none
    players := ["alice"]
    leaderboard := []
    currentRound := 5
    totalRounds := 5 }

/-! ## General lemmas about the embedded operations -/

lemma posEq_iff {p q : Position3D} : posEq p q = true ↔ p = q := by
  cases p
  cases q
  simp [posEq, Position3D.mk.injEq, and_assoc]

lemma isPositionOccupied_false_iff {shapes : List PlacedShape} {position : Position3D} :
    isPositionOccupied shapes position = false ↔
      ∀ s ∈ shapes, s.position ≠ position := by
  rw [← Bool.not_eq_true, isPositionOccupied, List.any_eq_true]
  push_neg
  constructor
  · intro h s hs
    have := h s hs
    simpa [posEq_iff] using this
  · intro h s hs
    simpa [posEq_iff] using h s hs

lemma createChallenge_shapes (gs : GameState) (env : ChallengeEnv) :
    (createChallenge gs env).2.shapes = gs.shapes := by
  simp only [createChallenge]
  split <;> rfl

lemma createChallenge_leaderboard (gs : GameState) (env : ChallengeEnv) :
    (createChallenge gs env).2.leaderboard = gs.leaderboard := by
  simp only [createChallenge]
  split <;> rfl

lemma completeNext_shapes (gs : GameState) (env : ChallengeEnv) :
    (completeChallengeAndScheduleNext gs env).2.shapes = gs.shapes := by
  simp only [completeChallengeAndScheduleNext]
  split
  · rw [createChallenge_shapes]
  · rfl

lemma completeNext_leaderboard (gs : GameState) (env : ChallengeEnv) :
    (completeChallengeAndScheduleNext gs env).2.leaderboard = gs.leaderboard := by
  simp only [completeChallengeAndScheduleNext]
  split
  · rw [createChallenge_leaderboard]
  · rfl

lemma updatePlayerScore_shapes (gs : GameState) (pid : String) (b now : Int) :
    (updatePlayerScore gs pid b now).shapes = gs.shapes := rfl

lemma updatePlayerScore_currentChallenge (gs : GameState) (pid : String) (b now : Int) :
    (updatePlayerScore gs pid b now).currentChallenge = gs.currentChallenge := rfl

lemma updatePlayerScore_currentRound (gs : GameState) (pid : String) (b now : Int) :
    (updatePlayerScore gs pid b now).currentRound = gs.currentRound := rfl

lemma updatePlayerScore_totalRounds (gs : GameState) (pid : String) (b now : Int) :
    (updatePlayerScore gs pid b now).totalRounds = gs.totalRounds := rfl

lemma placeShape_occupied (gs : GameState) (req : PlaceShapeRequest)
    (u nid : String) (now : Int) (env : ChallengeEnv)
    (hocc : isPositionOccupied gs.shapes req.position = true) :
    placeShape gs req u nid now env =
      { success := false
        shape := none
        gameState := gs
        message := occupiedMessage req.position
        isFirstPlacement := false } := by
  simp [placeShape, hocc]

lemma placeShape_success (gs : GameState) (req : PlaceShapeRequest)
    (u nid : String) (now : Int) (env : ChallengeEnv) :
    (placeShape gs req u nid now env).success
      = !(isPositionOccupied gs.shapes req.position) := by
  cases hocc : isPositionOccupied gs.shapes req.position <;>
    simp [placeShape, hocc]

lemma placeShape_shapes_not_occupied (gs : GameState) (req : PlaceShapeRequest)
    (u nid : String) (now : Int) (env : ChallengeEnv)
    (hocc : isPositionOccupied gs.shapes req.position = false) :
    (placeShape gs req u nid now env).gameState.shapes
      = gs.shapes ++ [mkPlacedShape req u nid now] := by
  simp [placeShape, hocc, apply_ite GameState.shapes, completeNext_shapes,
    updatePlayerScore_shapes]

/-! ## C10 -/

/-- **C10**: the pure validation and scoring helpers duplicated across the two
server variants (`part_002`, embedded at the top level, versus `part_003`,
embedded in namespace `ServerB`) are extensionally equal: on every input they
return the same boolean result and perform the same leaderboard update. -/
theorem duplicated_helpers_extensionally_equal :
    (∀ gameState, checkChallengeCompletion gameState
        = ServerB.checkChallengeCompletion gameState) ∧
    (∀ shapes position, isPositionOccupied shapes position
        = ServerB.isPositionOccupied shapes position) ∧
    (∀ gameState shape, isValidChallengeMove gameState shape
        = ServerB.isValidChallengeMove gameState shape) ∧
    (∀ gameState currentShape, isFirstPlacementInChallenge gameState currentShape
        = ServerB.isFirstPlacementInChallenge gameState currentShape) ∧
    (∀ gameState playerId bonusPoints now,
      updatePlayerScore gameState playerId bonusPoints now
        = ServerB.updatePlayerScore gameState playerId bonusPoints now) :=
  ⟨fun _ => rfl, fun _ _ => rfl, fun _ _ => rfl, fun _ _ => rfl,
   fun _ _ _ _ => rfl⟩

/-! ## C7 -/

lemma sampleSlot_spec (rand : Nat → Position3D) (bad : Position3D → Bool) :
    ∀ budget k, 1 ≤ budget →
      k < (sampleSlot rand bad k budget).2 ∧
      (sampleSlot rand bad k budget).2 ≤ k + budget ∧
      (sampleSlot rand bad k budget).1 = rand ((sampleSlot rand bad k budget).2 - 1) ∧
      (bad (sampleSlot rand bad k budget).1 = true →
        (sampleSlot rand bad k budget).2 = k + budget) := by
  intro budget
  induction budget with
  | zero => exact fun k h => absurd h (by omega)
  | succ n ih =>
    intro k _
    cases n with
    | zero => refine ⟨?_, ?_, ?_, ?_⟩ <;> simp [sampleSlot]
    | succ m =>
      show _ ∧ _ ∧ _ ∧ _
      rw [show m + 1 + 1 = m + 2 from rfl]
      simp only [sampleSlot]
      cases hb : bad (rand k) with
      | true =>
        simp only [hb, if_true]
        obtain ⟨h1, h2, h3, h4⟩ := ih (k + 1) (by omega)
        exact ⟨by omega, by omega, h3, fun hbad => by have := h4 hbad; omega⟩
      | false =>
        simp only [hb, Bool.false_eq_true, if_false]
        exact ⟨by omega, by omega, by simp, fun hbad => hbad.elim⟩

lemma genPositionsAux_spec (rand : Nat → Position3D) (shapes : List PlacedShape) :
    ∀ n acc k,
      (genPositionsAux rand shapes acc k n).1.length = acc.length + n ∧
      (genPositionsAux rand shapes acc k n).2 ≤ k + n * maxAttempts := by
  intro n
  induction n with
  | zero => intro acc k; simp [genPositionsAux]
  | succ m ih =>
    intro acc k
    simp only [genPositionsAux]
    obtain ⟨h1, h2⟩ := ih
      (acc ++ [(sampleSlot rand
        (fun position => isPositionOccupied shapes position ||
          acc.any fun p => posEq p position) k maxAttempts).1])
      (sampleSlot rand
        (fun position => isPositionOccupied shapes position ||
          acc.any fun p => posEq p position) k maxAttempts).2
    obtain ⟨g1, g2, _, _⟩ := sampleSlot_spec rand
      (fun position => isPositionOccupied shapes position ||
        acc.any fun p => posEq p position) maxAttempts k (by simp [maxAttempts])
    constructor
    · rw [h1]
      simp
      omega
    · calc _ ≤ _ := h2
        _ ≤ k + maxAttempts + m * maxAttempts := by omega
        _ = k + (m + 1) * maxAttempts := by ring

/-- **C7**: challenge slot generation always terminates.  For a single slot,
the do-while resampling loop draws at least one and at most `maxAttempts = 100`
samples from the random stream, the accepted position is always the
last-drawn sample, and a still-colliding position can only be returned when
the whole 100-sample budget was used up.  The 3-slot generation loop of
`createChallenge` produces exactly 3 positions while consuming at most
`3 * 100` samples; in particular the generation never runs unboundedly. -/
theorem challenge_slot_generation_bounded :
    (∀ (rand : Nat → Position3D) (bad : Position3D → Bool) (k : Nat),
      k < (sampleSlot rand bad k maxAttempts).2 ∧
      (sampleSlot rand bad k maxAttempts).2 ≤ k + maxAttempts ∧
      (sampleSlot rand bad k maxAttempts).1
        = rand ((sampleSlot rand bad k maxAttempts).2 - 1) ∧
      (bad (sampleSlot rand bad k maxAttempts).1 = true →
        (sampleSlot rand bad k maxAttempts).2 = k + maxAttempts)) ∧
    (∀ (rand : Nat → Position3D) (shapes : List PlacedShape) (k : Nat),
      (genPositions rand shapes k).1.length = 3 ∧
      (genPositions rand shapes k).2 ≤ k + 3 * maxAttempts) := by
  constructor
  · intro rand bad k
    exact sampleSlot_spec rand bad maxAttempts k (by simp [maxAttempts])
  · intro rand shapes k
    obtain ⟨h1, h2⟩ := genPositionsAux_spec rand shapes 3 [] k
    exact ⟨by simpa using h1, h2⟩

/-- Closed witness for `challenge_slot_generation_bounded`: with an
always-colliding predicate, a slot consumes exactly the 100-sample budget and
returns the last sample anyway; and a concrete generation round yields 3
slots. -/
theorem challenge_slot_generation_bounded_witness :
    (sampleSlot (fun _ => { x := 0, y := 0, z := 0 }) (fun _ => true) 0 maxAttempts).2
      = 0 + maxAttempts ∧
    (genPositions (fun _ => { x := 0, y := 0, z := 0 }) [] 0).1.length = 3 :=
  ⟨(challenge_slot_generation_bounded.1
      (fun _ => { x := 0, y := 0, z := 0 }) (fun _ => true) 0).2.2.2 rfl,
   (challenge_slot_generation_bounded.2
      (fun _ => { x := 0, y := 0, z := 0 }) [] 0).1⟩

/-! ## C1 -/

lemma placeShape_preserves_distinct (gs : GameState) (req : PlaceShapeRequest)
    (u nid : String) (now : Int) (env : ChallengeEnv)
    (h : gs.shapes.Pairwise fun a b => a.position ≠ b.position) :
    (placeShape gs req u nid now env).gameState.shapes.Pairwise
      (fun a b => a.position ≠ b.position) := by
  cases hocc : isPositionOccupied gs.shapes req.position with
  | true =>
    rw [placeShape_occupied gs req u nid now env hocc]
    exact h
  | false =>
    rw [placeShape_shapes_not_occupied gs req u nid now env hocc]
    rw [List.pairwise_append]
    refine ⟨h, by simp, ?_⟩
    intro a ha b hb
    have hb' : b = mkPlacedShape req u nid now := by simpa using hb
    subst hb'
    exact isPositionOccupied_false_iff.mp hocc a ha

lemma runPlacements_preserves_distinct :
    ∀ (calls : List PlaceCall) (gs : GameState),
      gs.shapes.Pairwise (fun a b => a.position ≠ b.position) →
      (runPlacements gs calls).shapes.Pairwise
        (fun a b => a.position ≠ b.position) := by
  intro calls
  induction calls with
  | nil => exact fun gs h => h
  | cons c cs ih =>
    intro gs h
    exact ih _ (placeShape_preserves_distinct gs c.request c.username c.newId
      c.now c.env h)

/-- **C1**: a placement request targeting the exact position of an
already-placed shape is rejected with `success:false` and the "occupied"
message, leaving the session state entirely unchanged; consequently, starting
from any state with pairwise-distinct shape positions, any sequence of
sequential placements preserves the property that no two placed shapes share
a position. -/
theorem occupied_rejected_and_positions_distinct
    (gs : GameState) (req : PlaceShapeRequest) (username newId : String)
    (now : Int) (env : ChallengeEnv) :
    (isPositionOccupied gs.shapes req.position = true →
      (placeShape gs req username newId now env).success = false ∧
      (placeShape gs req username newId now env).gameState = gs ∧
      (placeShape gs req username newId now env).message
        = occupiedMessage req.position) ∧
    (∀ calls : List PlaceCall,
      gs.shapes.Pairwise (fun a b => a.position ≠ b.position) →
      (runPlacements gs calls).shapes.Pairwise
        (fun a b => a.position ≠ b.position)) := by
  constructor
  · intro hocc
    rw [placeShape_occupied gs req username newId now env hocc]
    exact ⟨rfl, rfl, rfl⟩
  · intro calls h
    exact runPlacements_preserves_distinct calls gs h

/-- Closed witness for `occupied_rejected_and_positions_distinct` at a
concrete occupied position. -/
theorem occupied_rejected_and_positions_distinct_witness :
    (placeShape exGS exReq "bob" "s2" 1 exEnv).success = false ∧
    (placeShape exGS exReq "bob" "s2" 1 exEnv).gameState = exGS ∧
    (placeShape exGS exReq "bob" "s2" 1 exEnv).message
      = occupiedMessage exReq.position ∧
    (runPlacements exGS []).shapes.Pairwise
      (fun a b => a.position ≠ b.position) := by
  obtain ⟨h1, h2⟩ :=
    occupied_rejected_and_positions_distinct exGS exReq "bob" "s2" 1 exEnv
  obtain ⟨ha, hb, hc⟩ := h1 (by decide)
  exact ⟨ha, hb, hc, h2 [] (by simp [exGS])⟩

/-! ## C9 -/

/-- **C9**: the server-side place operation performs no grid-bounds
validation: a requested position lying outside the documented ranges
(`x,z ∈ [-10, 9]`, `y ∈ [0, 10]`) is still accepted and appended whenever it
does not equal the position of an already-placed shape; in general the
success flag is exactly the negation of the occupancy check, so occupancy is
the only acceptance condition. -/
theorem out_of_range_placement_accepted
    (gs : GameState) (req : PlaceShapeRequest) (username newId : String)
    (now : Int) (env : ChallengeEnv)
    (hout : ¬(-10 ≤ req.position.x ∧ req.position.x ≤ 9 ∧
              0 ≤ req.position.y ∧ req.position.y ≤ 10 ∧
              -10 ≤ req.position.z ∧ req.position.z ≤ 9))
    (hocc : isPositionOccupied gs.shapes req.position = false) :
    (placeShape gs req username newId now env).success = true ∧
    (placeShape gs req username newId now env).gameState.shapes
      = gs.shapes ++ [mkPlacedShape req username newId now] ∧
    (∀ (gs2 : GameState) (req2 : PlaceShapeRequest) (u2 n2 : String)
        (t2 : Int) (e2 : ChallengeEnv),
      (placeShape gs2 req2 u2 n2 t2 e2).success
        = !(isPositionOccupied gs2.shapes req2.position)) := by
  refine ⟨?_, placeShape_shapes_not_occupied gs req username newId now env hocc,
    fun gs2 req2 u2 n2 t2 e2 => placeShape_success gs2 req2 u2 n2 t2 e2⟩
  rw [placeShape_success, hocc]
  rfl

/-- Closed witness for `out_of_range_placement_accepted`: a shape at
`(1000, -5, 1000)` is accepted into the session with one origin shape. -/
theorem out_of_range_placement_accepted_witness :
    (placeShape exGS exReqFar "bob" "s2" 1 exEnv).success = true ∧
    (placeShape exGS exReqFar "bob" "s2" 1 exEnv).gameState.shapes
      = exGS.shapes ++ [mkPlacedShape exReqFar "bob" "s2" 1] :=
  ⟨(out_of_range_placement_accepted exGS exReqFar "bob" "s2" 1 exEnv
      (by decide) (by decide)).1,
   (out_of_range_placement_accepted exGS exReqFar "bob" "s2" 1 exEnv
      (by decide) (by decide)).2.1⟩

/-! ## C8 -/

/-- **C8**: a placement whose position matches an active challenge slot (the
slot found by `findIndex`) but whose kind or color does not match that slot's
requirement is not rejected: the operation returns `success:true`, the shape
is appended to the session (occupying the position), and the leaderboard is
left untouched, so no score is awarded for it. -/
theorem mismatched_move_accepted_unscored
    (gs : GameState) (ch : Challenge) (req : PlaceShapeRequest)
    (u nid : String) (now : Int) (env : ChallengeEnv) (i : Nat)
    (hocc : isPositionOccupied gs.shapes req.position = false)
    (hch : gs.currentChallenge = some ch)
    (hidx : ch.positions.findIdx? (fun pos => posEq pos req.position) = some i)
    (hmis : ¬(ch.shapes[i]? = some req.type ∧ ch.colors[i]? = some req.color)) :
    (placeShape gs req u nid now env).success = true ∧
    (placeShape gs req u nid now env).gameState.shapes
      = gs.shapes ++ [mkPlacedShape req u nid now] ∧
    (placeShape gs req u nid now env).gameState.leaderboard = gs.leaderboard := by
  have hvalid : isValidChallengeMove gs (mkPlacedShape req u nid now) = false := by
    simp only [isValidChallengeMove, hch]
    rw [show (mkPlacedShape req u nid now).position = req.position from rfl, hidx]
    have hmis' : ¬((ch.shapes[i]? == some req.type) = true ∧
        (ch.colors[i]? == some req.color) = true) := by
      simpa [beq_iff_eq] using hmis
    cases h1 : (ch.shapes[i]? == some req.type) <;>
      cases h2 : (ch.colors[i]? == some req.color) <;>
      simp_all [mkPlacedShape]
  refine ⟨?_, placeShape_shapes_not_occupied gs req u nid now env hocc, ?_⟩
  · rw [placeShape_success, hocc]
    rfl
  · simp [placeShape, hocc, hvalid, apply_ite GameState.leaderboard,
      completeNext_leaderboard]

/-- Closed witness for `mismatched_move_accepted_unscored`: placing a red
cube on the slot that demands a red sphere is accepted and unscored. -/
theorem mismatched_move_accepted_unscored_witness :
    (placeShape exGSCh exReq "bob" "s2" 1 exEnv).success = true ∧
    (placeShape exGSCh exReq "bob" "s2" 1 exEnv).gameState.shapes
      = exGSCh.shapes ++ [mkPlacedShape exReq "bob" "s2" 1] ∧
    (placeShape exGSCh exReq "bob" "s2" 1 exEnv).gameState.leaderboard
      = exGSCh.leaderboard :=
  mismatched_move_accepted_unscored exGSCh exCh exReq "bob" "s2" 1 exEnv 0
    (by decide) rfl (by decide) (by decide)

/-! ## C3 -/

lemma placeShape_challenge_none (gs : GameState) (req : PlaceShapeRequest)
    (u nid : String) (now : Int) (env : ChallengeEnv)
    (hch : gs.currentChallenge = none) :
    (placeShape gs req u nid now env).gameState.currentChallenge = none ∧
    (placeShape gs req u nid now env).gameState.currentRound = gs.currentRound ∧
    (placeShape gs req u nid now env).gameState.totalRounds = gs.totalRounds := by
  cases hocc : isPositionOccupied gs.shapes req.position with
  | true =>
    rw [placeShape_occupied gs req u nid now env hocc]
    exact ⟨hch, rfl, rfl⟩
  | false =>
    simp [placeShape, hocc, hch, apply_ite GameState.currentChallenge,
      apply_ite GameState.currentRound, apply_ite GameState.totalRounds,
      updatePlayerScore_currentChallenge, updatePlayerScore_currentRound,
      updatePlayerScore_totalRounds]

lemma runPlacements_challenge_none :
    ∀ (calls : List PlaceCall) (gs : GameState), gs.currentChallenge = none →
      (runPlacements gs calls).currentChallenge = none ∧
      (runPlacements gs calls).currentRound = gs.currentRound ∧
      (runPlacements gs calls).totalRounds = gs.totalRounds := by
  intro calls
  induction calls with
  | nil => exact fun gs h => ⟨h, rfl, rfl⟩
  | cons c cs ih =>
    intro gs h
    obtain ⟨h1, h2, h3⟩ :=
      placeShape_challenge_none gs c.request c.username c.newId c.now c.env h
    obtain ⟨g1, g2, g3⟩ := ih _ h1
    exact ⟨g1, g2.trans h2, g3.trans h3⟩

/-- **C3**: once a session's `currentRound` has reached `totalRounds`
(which the store layer always sets to the constant `TOTAL_ROUNDS`),
`createChallenge` returns `none` and leaves the state unchanged; and once the
final round's challenge has been cleared (`currentChallenge = none`), no
sequence of subsequent placements ever makes a challenge appear in the
session (nor changes its round counters). -/
theorem no_challenge_after_final_round
    (gs : GameState) (ht : gs.totalRounds = TOTAL_ROUNDS)
    (hr : gs.totalRounds ≤ gs.currentRound) :
    (∀ env : ChallengeEnv,
      (createChallenge gs env).1 = none ∧ (createChallenge gs env).2 = gs) ∧
    (gs.currentChallenge = none →
      ∀ calls : List PlaceCall,
        (runPlacements gs calls).currentChallenge = none ∧
        (runPlacements gs calls).currentRound = gs.currentRound ∧
        (runPlacements gs calls).totalRounds = gs.totalRounds) := by
  have hge : gs.currentRound ≥ TOTAL_ROUNDS := by omega
  exact ⟨fun env => by simp [createChallenge, hge],
    fun hch calls => runPlacements_challenge_none calls gs hch⟩

/-- Closed witness for `no_challenge_after_final_round` on a finished
session. -/
theorem no_challenge_after_final_round_witness :
    (createChallenge exGSDone exEnv).1 = none ∧
    (runPlacements exGSDone []).currentChallenge = none := by
  obtain ⟨h1, h2⟩ := no_challenge_after_final_round exGSDone rfl (by decide)
  exact ⟨(h1 exEnv).1, (h2 rfl []).1⟩

/-! ## C5 -/

/-- **C5**: with an active challenge, `isFirstPlacementInChallenge` is true
iff no *other* placed shape (different id), timestamped at or after the
challenge's start time, is itself a valid challenge move; without an active
challenge it is false.  Moreover, in the `/api/place` transaction the
`isFirstPlacement` result is evaluated (conjoined with
`validateChallengeMove`) against the pre-insertion state, and appending the
shape being checked to the session does not change the answer: the shape is
never counted against itself. -/
theorem isFirstPlacement_characterization (gs : GameState) (cur : PlacedShape) :
    (gs.currentChallenge = none → isFirstPlacementInChallenge gs cur = false) ∧
    (∀ ch, gs.currentChallenge = some ch →
      (isFirstPlacementInChallenge gs cur = true ↔
        ¬∃ s, s ∈ gs.shapes ∧ s.id ≠ cur.id ∧ ch.startTime ≤ s.timestamp ∧
          isValidChallengeMove gs s = true)) ∧
    (∀ (req : PlaceShapeRequest) (u nid : String) (now : Int)
        (env : ChallengeEnv),
      isPositionOccupied gs.shapes req.position = false →
      (placeShape gs req u nid now env).isFirstPlacement
        = (isValidChallengeMove gs (mkPlacedShape req u nid now) &&
           isFirstPlacementInChallenge gs (mkPlacedShape req u nid now))) ∧
    (isFirstPlacementInChallenge { gs with shapes := gs.shapes ++ [cur] } cur
      = isFirstPlacementInChallenge gs cur) := by
  refine ⟨?_, ?_, ?_, ?_⟩
  · intro h
    simp [isFirstPlacementInChallenge, h]
  · intro ch hch
    have hp : ∀ s : PlacedShape,
        ((if s.id == cur.id then false
          else if s.timestamp < ch.startTime then false
          else
            match ch.positions.findIdx? (fun pos => posEq pos s.position) with
            | none => false
            | some challengeIndex =>
              ch.shapes[challengeIndex]? == some s.type &&
              ch.colors[challengeIndex]? == some s.color) = true)
        ↔ (s.id ≠ cur.id ∧ ch.startTime ≤ s.timestamp ∧
            isValidChallengeMove gs s = true) := by
      intro s
      have hval : isValidChallengeMove gs s =
          (match ch.positions.findIdx? (fun pos => posEq pos s.position) with
           | none => false
           | some challengeIndex =>
             ch.shapes[challengeIndex]? == some s.type &&
             ch.colors[challengeIndex]? == some s.color) := by
        simp only [isValidChallengeMove, hch]
      rw [hval]
      cases hid : (s.id == cur.id) with
      | true =>
        have heq : s.id = cur.id := by simpa using hid
        simp [heq]
      | false =>
        have hne : s.id ≠ cur.id := by simpa using hid
        by_cases hts : s.timestamp < ch.startTime
        · simp only [Bool.false_eq_true, if_false, if_pos hts]
          constructor
          · intro h
            exact h.elim
          · rintro ⟨-, hle, -⟩
            omega
        · simp only [Bool.false_eq_true, if_false, if_neg hts]
          constructor
          · intro hm
            exact ⟨hne, by omega, hm⟩
          · rintro ⟨-, -, hm⟩
            exact hm
    simp only [isFirstPlacementInChallenge, hch]
    rw [beq_iff_eq, List.length_eq_zero, List.filter_eq_nil_iff]
    constructor
    · intro h hex
      obtain ⟨s, hs, h1, h2, h3⟩ := hex
      exact h s hs ((hp s).mpr ⟨h1, h2, h3⟩)
    · intro h s hs hpred
      exact h ⟨s, hs, (hp s).mp hpred⟩
  · intro req u nid now env hocc
    simp [placeShape, hocc]
  · cases hc : gs.currentChallenge with
    | none => simp [isFirstPlacementInChallenge, hc]
    | some ch =>
      simp only [isFirstPlacementInChallenge, hc]
      rw [List.filter_append]
      simp

/-- Closed witness for `isFirstPlacement_characterization` on the concrete
session `exGSCh` with active challenge `exCh`. -/
theorem isFirstPlacement_characterization_witness :
    (isFirstPlacementInChallenge exGSCh exShape = true ↔
      ¬∃ s, s ∈ exGSCh.shapes ∧ s.id ≠ exShape.id ∧
        exCh.startTime ≤ s.timestamp ∧ isValidChallengeMove exGSCh s = true) ∧
    (placeShape exGSCh exReq "bob" "s2" 1 exEnv).isFirstPlacement
      = (isValidChallengeMove exGSCh (mkPlacedShape exReq "bob" "s2" 1) &&
         isFirstPlacementInChallenge exGSCh (mkPlacedShape exReq "bob" "s2" 1)) :=
  ⟨(isFirstPlacement_characterization exGSCh exShape).2.1 exCh rfl,
   (isFirstPlacement_characterization exGSCh exShape).2.2.1 exReq "bob" "s2" 1
     exEnv (by decide)⟩

/-! ## C4 -/

/-- **C4**: `checkChallengeCompletion` returns false (not an error) when the
session has no active challenge; and with an active challenge whose three
parallel slot arrays have equal lengths (as every challenge the engine
creates does), it returns true iff every slot has some placed shape exactly
matching that slot's position, kind and color. -/
theorem checkChallengeCompletion_characterization (gs : GameState) :
    (gs.currentChallenge = none → checkChallengeCompletion gs = false) ∧
    (∀ ch, gs.currentChallenge = some ch →
      ch.shapes.length = ch.positions.length →
      ch.colors.length = ch.positions.length →
      (checkChallengeCompletion gs = true ↔
        ∀ i, i < ch.positions.length →
          ∃ s, s ∈ gs.shapes ∧ some s.position = ch.positions[i]? ∧
            some s.type = ch.shapes[i]? ∧ some s.color = ch.colors[i]?)) := by
  constructor
  · intro h
    simp [checkChallengeCompletion, h]
  · intro ch hch hlens hlenc
    simp only [checkChallengeCompletion, hch]
    rw [List.all_eq_true]
    constructor
    · intro h i hi
      have hmem := h i (List.mem_range.mpr hi)
      rw [List.getElem?_eq_getElem hi,
        List.getElem?_eq_getElem (show i < ch.shapes.length by omega),
        List.getElem?_eq_getElem (show i < ch.colors.length by omega)] at hmem ⊢
      obtain ⟨s, hs, hpred⟩ := List.find?_isSome.mp hmem
      rw [Bool.and_eq_true, Bool.and_eq_true] at hpred
      obtain ⟨⟨hpos, htyp⟩, hcol⟩ := hpred
      exact ⟨s, hs, by rw [posEq_iff.mp hpos], by rw [beq_iff_eq.mp htyp],
        by rw [beq_iff_eq.mp hcol]⟩
    · intro h i hmem
      have hi := List.mem_range.mp hmem
      obtain ⟨s, hs, hpos, htyp, hcol⟩ := h i hi
      rw [List.getElem?_eq_getElem hi] at hpos
      rw [List.getElem?_eq_getElem (show i < ch.shapes.length by omega)] at htyp
      rw [List.getElem?_eq_getElem (show i < ch.colors.length by omega)] at hcol
      rw [List.getElem?_eq_getElem hi,
        List.getElem?_eq_getElem (show i < ch.shapes.length by omega),
        List.getElem?_eq_getElem (show i < ch.colors.length by omega)]
      rw [Option.some_inj] at hpos htyp hcol
      refine List.find?_isSome.mpr ⟨s, hs, ?_⟩
      rw [Bool.and_eq_true, Bool.and_eq_true]
      exact ⟨⟨posEq_iff.mpr hpos, beq_iff_eq.mpr htyp⟩, beq_iff_eq.mpr hcol⟩

/-- Closed witness for `checkChallengeCompletion_characterization`: in the
concrete session `exGSCh` the single slot of `exCh` is unmatched, so
completion is false and the slot condition fails. -/
theorem checkChallengeCompletion_characterization_witness :
    checkChallengeCompletion exGSCh = true ↔
      ∀ i, i < exCh.positions.length →
        ∃ s, s ∈ exGSCh.shapes ∧ some s.position = exCh.positions[i]? ∧
          some s.type = exCh.shapes[i]? ∧ some s.color = exCh.colors[i]? :=
  (checkChallengeCompletion_characterization exGSCh).2 exCh rfl (by decide)
    (by decide)

/-! ## Leaderboard lemmas shared by C2 and C6 -/

lemma lbLE_trans :
    ∀ a b c : PlayerScore, lbLE a b = true → lbLE b c = true → lbLE a c = true := by
  intro a b c hab hbc
  unfold lbLE at *
  split_ifs at * <;> simp only [decide_eq_true_eq] at * <;> omega

lemma lbLE_total : ∀ a b : PlayerScore, (lbLE a b || lbLE b a) = true := by
  intro a b
  rw [Bool.or_eq_true]
  unfold lbLE
  split_ifs <;> simp only [decide_eq_true_eq] <;> omega

lemma lbLE_iff (a b : PlayerScore) :
    lbLE a b = true ↔
      (b.score < a.score ∨
        (a.score = b.score ∧ a.lastPlacement.getD 0 ≤ b.lastPlacement.getD 0)) := by
  unfold lbLE
  split_ifs with h <;> simp only [decide_eq_true_eq]
  · constructor
    · exact Or.inl
    · rintro (h1 | ⟨h2, -⟩)
      · exact h1
      · exact absurd h2 h
  · constructor
    · intro hle
      exact Or.inr ⟨by omega, hle⟩
    · rintro (h1 | ⟨-, h2⟩)
      · omega
      · exact h2

lemma updateFirst_map_playerId (pid : String) (b now : Int) :
    ∀ lb : List PlayerScore,
      (updateFirst lb pid (bump b now)).map PlayerScore.playerId
        = lb.map PlayerScore.playerId := by
  intro lb
  induction lb with
  | nil => rfl
  | cons p rest ih =>
    simp only [updateFirst]
    by_cases h : (p.playerId == pid) = true
    · rw [if_pos h]
      simp [bump]
    · rw [if_neg h]
      simp [ih]

lemma updateFirst_bump_found (pid : String) (b now : Int) :
    ∀ lb : List PlayerScore, (lb.map PlayerScore.playerId).Nodup →
      ∀ e, lb.find? (fun p => p.playerId == pid) = some e →
        bump b now e ∈ updateFirst lb pid (bump b now) ∧
        (∀ x ∈ updateFirst lb pid (bump b now),
          x.playerId = pid → x = bump b now e) := by
  intro lb
  induction lb with
  | nil =>
    intro _ e he
    simp [List.find?] at he
  | cons p rest ih =>
    intro hnd e he
    rw [List.map_cons, List.nodup_cons] at hnd
    obtain ⟨hniq, hnd'⟩ := hnd
    by_cases hp : (p.playerId == pid) = true
    · rw [List.find?_cons_of_pos (p := fun q => q.playerId == pid) rest hp,
        Option.some_inj] at he
      subst he
      simp only [updateFirst, if_pos hp]
      refine ⟨List.mem_cons_self _ _, ?_⟩
      intro x hx hxpid
      rcases List.mem_cons.mp hx with hx1 | hx2
      · exact hx1
      · exfalso
        have hppid : p.playerId = pid := by simpa using hp
        exact hniq (List.mem_map.mpr ⟨x, hx2, by rw [hxpid, hppid]⟩)
    · rw [List.find?_cons_of_neg (p := fun q => q.playerId == pid) rest hp] at he
      simp only [updateFirst, if_neg hp]
      obtain ⟨ih1, ih2⟩ := ih hnd' e he
      refine ⟨List.mem_cons_of_mem _ ih1, ?_⟩
      intro x hx hxpid
      rcases List.mem_cons.mp hx with hx1 | hx2
      · exfalso
        exact hp (by rw [hx1] at hxpid; simpa [beq_iff_eq] using hxpid)
      · exact ih2 x hx2 hxpid

lemma updateFirst_append_not_found (pid : String) (f : PlayerScore → PlayerScore) :
    ∀ (l1 l2 : List PlayerScore), (∀ x ∈ l1, (x.playerId == pid) = false) →
      updateFirst (l1 ++ l2) pid f = l1 ++ updateFirst l2 pid f := by
  intro l1
  induction l1 with
  | nil => simp
  | cons p rest ih =>
    intro l2 h
    have hp : (p.playerId == pid) = false := h p (List.mem_cons_self _ _)
    simp only [List.cons_append, updateFirst]
    rw [if_neg (by simp [hp])]
    exact congrArg (p :: ·) (ih l2 (fun x hx => h x (List.mem_cons_of_mem _ hx)))

lemma find?_eq_of_unique {α : Type} {p : α → Bool} {l : List α} {e : α}
    (he : e ∈ l) (hpe : p e = true) (huniq : ∀ x ∈ l, p x = true → x = e) :
    l.find? p = some e := by
  cases hf : l.find? p with
  | none =>
    have := List.find?_eq_none.mp hf e he
    exact absurd hpe this
  | some a =>
    rw [huniq a (List.mem_of_find?_eq_some hf) (List.find?_some hf)]

lemma getScore_updatePlayerScore (gs : GameState) (pid : String) (b now : Int)
    (hnd : (gs.leaderboard.map PlayerScore.playerId).Nodup) :
    getScore (updatePlayerScore gs pid b now).leaderboard pid
      = getScore gs.leaderboard pid + b := by
  cases hfind : gs.leaderboard.find? (fun p => p.playerId == pid) with
  | some e =>
    have hsome : (gs.leaderboard.find? fun p => p.playerId == pid).isSome = true := by
      rw [hfind]
      rfl
    obtain ⟨hmem, huniq⟩ := updateFirst_bump_found pid b now gs.leaderboard hnd e hfind
    have hperm := List.mergeSort_perm (updateFirst gs.leaderboard pid (bump b now)) lbLE
    have hpe : ((bump b now e).playerId == pid) = true := by
      have := List.find?_some hfind
      simpa [bump] using this
    have hfound := find?_eq_of_unique (p := fun q => q.playerId == pid)
      (hperm.mem_iff.mpr hmem) hpe
      (fun x hx hpx => huniq x (hperm.mem_iff.mp hx) (by simpa using hpx))
    simp only [updatePlayerScore, hsome, if_true]
    simp only [getScore, hfound, hfind, bump]
  | none =>
    have hnone : (gs.leaderboard.find? fun p => p.playerId == pid).isSome = false := by
      rw [hfind]
      rfl
    have hall : ∀ x ∈ gs.leaderboard, (x.playerId == pid) = false := by
      intro x hx
      have := List.find?_eq_none.mp hfind x hx
      simpa using this
    have hupd : updateFirst
        (gs.leaderboard ++ [{ playerId := pid, score := 0, lastPlacement := none }])
        pid (bump b now)
        = gs.leaderboard
            ++ [bump b now { playerId := pid, score := 0, lastPlacement := none }] := by
      rw [updateFirst_append_not_found pid (bump b now) gs.leaderboard _ hall]
      simp [updateFirst]
    have hperm := List.mergeSort_perm
      (updateFirst
        (gs.leaderboard ++ [{ playerId := pid, score := 0, lastPlacement := none }])
        pid (bump b now)) lbLE
    have hmem : bump b now { playerId := pid, score := 0, lastPlacement := none }
        ∈ updateFirst
          (gs.leaderboard ++ [{ playerId := pid, score := 0, lastPlacement := none }])
          pid (bump b now) := by
      rw [hupd]
      simp
    have huniq : ∀ x ∈ updateFirst
        (gs.leaderboard ++ [{ playerId := pid, score := 0, lastPlacement := none }])
        pid (bump b now), x.playerId = pid →
        x = bump b now { playerId := pid, score := 0, lastPlacement := none } := by
      rw [hupd]
      intro x hx hxpid
      rcases List.mem_append.mp hx with hx1 | hx2
      · exfalso
        have := hall x hx1
        rw [hxpid] at this
        simp at this
      · simpa using hx2
    have hfound := find?_eq_of_unique (p := fun q => q.playerId == pid)
      (hperm.mem_iff.mpr hmem) (by simp [bump])
      (fun x hx hpx => huniq x (hperm.mem_iff.mp hx) (by simpa using hpx))
    simp only [updatePlayerScore, hnone, Bool.false_eq_true, if_false]
    simp only [getScore, hfound, hfind, bump]

lemma updatePlayerScore_sorted (gs : GameState) (pid : String) (b now : Int) :
    lbOrdered (updatePlayerScore gs pid b now).leaderboard := by
  simp only [updatePlayerScore, lbOrdered]
  exact (List.sorted_mergeSort lbLE_trans lbLE_total _).imp
    (fun h => (lbLE_iff _ _).mp h)

lemma updatePlayerScore_keys_nodup (gs : GameState) (pid : String) (b now : Int)
    (h : (gs.leaderboard.map PlayerScore.playerId).Nodup) :
    ((updatePlayerScore gs pid b now).leaderboard.map PlayerScore.playerId).Nodup := by
  simp only [updatePlayerScore]
  cases hfind : (gs.leaderboard.find? fun p => p.playerId == pid).isSome with
  | true =>
    rw [if_pos rfl]
    rw [(List.Perm.nodup_iff ((List.mergeSort_perm _ lbLE).map PlayerScore.playerId))]
    rw [updateFirst_map_playerId]
    exact h
  | false =>
    rw [if_neg (by simp)]
    rw [(List.Perm.nodup_iff ((List.mergeSort_perm _ lbLE).map PlayerScore.playerId))]
    rw [updateFirst_map_playerId]
    rw [List.map_append, List.nodup_append]
    refine ⟨h, by simp, ?_⟩
    have hnone : gs.leaderboard.find? (fun p => p.playerId == pid) = none := by
      cases hf : gs.leaderboard.find? (fun p => p.playerId == pid) with
      | none => rfl
      | some x =>
        rw [hf] at hfind
        simp at hfind
    intro a ha hb
    have hamem : a = pid := by simpa using hb
    subst hamem
    obtain ⟨x, hx, hxa⟩ := List.mem_map.mp ha
    have := List.find?_eq_none.mp hnone x hx
    exact this (by simp [hxa])

lemma applyScoringEvents_props :
    ∀ (events : List ScoringEvent) (gs : GameState),
      lbOrdered gs.leaderboard →
      (gs.leaderboard.map PlayerScore.playerId).Nodup →
      lbOrdered (applyScoringEvents gs events).leaderboard ∧
      ((applyScoringEvents gs events).leaderboard.map PlayerScore.playerId).Nodup := by
  intro events
  induction events with
  | nil => exact fun gs h1 h2 => ⟨h1, h2⟩
  | cons e es ih =>
    intro gs h1 h2
    exact ih _ (updatePlayerScore_sorted gs e.playerId e.bonusPoints e.now)
      (updatePlayerScore_keys_nodup gs e.playerId e.bonusPoints e.now h2)

/-! ## C2 -/

/-- **C2**: for an accepted placement (occupancy check passes) that is a valid
challenge move, the placing player's leaderboard score increases by exactly 2
when the placement is the first valid move of the current challenge, and by
exactly 1 otherwise; an accepted placement that is not a valid challenge move
leaves the whole leaderboard unchanged.  (The leaderboard is assumed to have
at most one entry per player, the invariant established by C6.) -/
theorem scoring_deltas
    (gs : GameState) (req : PlaceShapeRequest) (username newId : String)
    (now : Int) (env : ChallengeEnv)
    (hocc : isPositionOccupied gs.shapes req.position = false)
    (hnd : (gs.leaderboard.map PlayerScore.playerId).Nodup) :
    (isValidChallengeMove gs (mkPlacedShape req username newId now) = true →
      isFirstPlacementInChallenge gs (mkPlacedShape req username newId now) = true →
      getScore (placeShape gs req username newId now env).gameState.leaderboard
          username
        = getScore gs.leaderboard username + 2) ∧
    (isValidChallengeMove gs (mkPlacedShape req username newId now) = true →
      isFirstPlacementInChallenge gs (mkPlacedShape req username newId now) = false →
      getScore (placeShape gs req username newId now env).gameState.leaderboard
          username
        = getScore gs.leaderboard username + 1) ∧
    (isValidChallengeMove gs (mkPlacedShape req username newId now) = false →
      (placeShape gs req username newId now env).gameState.leaderboard
        = gs.leaderboard) := by
  refine ⟨?_, ?_, ?_⟩
  · intro hv hf
    simp only [placeShape, hocc, Bool.false_eq_true, if_false, hv, hf,
      Bool.and_self, if_true, apply_ite GameState.leaderboard,
      completeNext_leaderboard, ite_self]
    exact getScore_updatePlayerScore
      { gs with shapes := gs.shapes ++ [mkPlacedShape req username newId now] }
      username 2 now hnd
  · intro hv hf
    simp only [placeShape, hocc, Bool.false_eq_true, if_false, hv, hf,
      Bool.and_false, if_true, apply_ite GameState.leaderboard,
      completeNext_leaderboard, ite_self]
    exact getScore_updatePlayerScore
      { gs with shapes := gs.shapes ++ [mkPlacedShape req username newId now] }
      username 1 now hnd
  · intro hv
    simp only [placeShape, hocc, Bool.false_eq_true, if_false, hv,
      Bool.false_and, apply_ite GameState.leaderboard,
      completeNext_leaderboard, ite_self]

/-- Closed witness for `scoring_deltas`: in `exGSCh`, placing the required
red sphere on the slot is the first valid move and awards exactly 2 points. -/
theorem scoring_deltas_witness :
    getScore (placeShape exGSCh exReqSphere "bob" "s2" 1 exEnv).gameState.leaderboard
        "bob"
      = getScore exGSCh.leaderboard "bob" + 2 :=
  (scoring_deltas exGSCh exReqSphere "bob" "s2" 1 exEnv (by decide) (by decide)).1
    (by decide) (by decide)

/-! ## C6 -/

/-- **C6**: every leaderboard reachable from the empty leaderboard by a
sequence of scoring events is sorted descending by score with ties broken
ascending by last-scored timestamp, and contains at most one entry per player
id; moreover every single scoring event re-establishes this order no matter
what leaderboard it starts from. -/
theorem leaderboard_ordering_invariant
    (gs0 : GameState) (h0 : gs0.leaderboard = []) (events : List ScoringEvent) :
    lbOrdered (applyScoringEvents gs0 events).leaderboard ∧
    ((applyScoringEvents gs0 events).leaderboard.map PlayerScore.playerId).Nodup ∧
    (∀ (gs : GameState) (pid : String) (b now : Int),
      lbOrdered (updatePlayerScore gs pid b now).leaderboard) := by
  obtain ⟨ha, hb⟩ := applyScoringEvents_props events gs0
    (by rw [h0]; exact List.Pairwise.nil) (by rw [h0]; simp)
  exact ⟨ha, hb, fun gs pid b now => updatePlayerScore_sorted gs pid b now⟩

/-- Closed witness for `leaderboard_ordering_invariant` on a concrete
two-event history. -/
theorem leaderboard_ordering_invariant_witness :
    lbOrdered (applyScoringEvents exGSCh
      [{ playerId := "alice", bonusPoints := 2, now := 5 },
       { playerId := "bob", bonusPoints := 1, now := 6 }]).leaderboard ∧
    ((applyScoringEvents exGSCh
      [{ playerId := "alice", bonusPoints := 2, now := 5 },
       { playerId := "bob", bonusPoints := 1, now := 6 }]).leaderboard.map
        PlayerScore.playerId).Nodup :=
  ⟨(leaderboard_ordering_invariant exGSCh rfl _).1,
   (leaderboard_ordering_invariant exGSCh rfl _).2.1⟩

end Shape3D
